import Mathlib

/-!
# kube-grpc-balancer: a verification development

Shallow embedding of

* `cmd/gproxy/main.go`: `ParseProxyConfig`;
* `pkg/proxy/proxy.go`: the two frame pumps `forwardServerToClient` and
  `forwardClientToServer`, and the arbitration done by `serverHandler`.

Go strings are byte sequences.  A Go `error` result is an `Option`: `none` is
`nil`.  The gRPC streams are the environment of the program: every stream
method is given by the result of its `n`-th call.  The loop counter `i` of a
pump is a Go `int`, which wraps around; its width `intSize` (32 or 64 bits,
by platform) is a parameter of the pumps.
-/

set_option linter.dupNamespace false

namespace KubeGrpcBalancer

/-! ## cmd/gproxy/main.go -/

/-- A Go string: a sequence of bytes. -/
abbrev GoString := List UInt8

/-- The bytes of an ASCII literal. -/
def ascii (s : String) : GoString := s.data.map fun c => UInt8.ofNat c.toNat

/-- The byte `'-'`. -/
def dash : UInt8 := 45

namespace strings

/-- Search of `strings.Index`, carrying the offset `i` of the text still to be read. -/
def indexFrom (substr : GoString) : GoString → Nat → Int
  | [], i => if substr.isPrefixOf [] then (i : Int) else -1
  | c :: cs, i =>
    if substr.isPrefixOf (c :: cs) then (i : Int) else indexFrom substr cs (i + 1)

/-- Go's `strings.Index(s, substr)`: the index of the first instance of `substr` in `s`,
or `-1` when `substr` is not present in `s`. -/
def Index (s substr : GoString) : Int := indexFrom substr s 0

end strings

/-- `type ProxyConfig struct { ProxyAddress string; ServiceAddress string }`. -/
structure ProxyConfig where
  ProxyAddress : GoString
  ServiceAddress : GoString
deriving DecidableEq, Repr

/-- The zero value `ProxyConfig{}`. -/
def ProxyConfig.zero : ProxyConfig := { ProxyAddress := [], ServiceAddress := [] }

/-- The value of `fmt.Errorf(format, arg)`: the format and the argument it was built from. -/
structure FmtError where
  format : String
  arg : GoString
deriving DecidableEq, Repr

/-- The error both failing branches of `ParseProxyConfig` build. -/
def invalidProxyConfiguration (proxy : GoString) : FmtError :=
  { format := "%q is invalid proxy configuration", arg := proxy }

/-- Go's `ParseProxyConfig` (main.go, lines 29-43).  The result is the pair
`(ProxyConfig, error)`.  `proxy[:splitIdx]` is `take` and `proxy[splitIdx+1:]` is `drop`;
`Index_succ_le_length` below shows that the slice bounds are within the string. -/
def ParseProxyConfig (proxy : GoString) : ProxyConfig × Option FmtError :=
  let splitIdx := strings.Index proxy [dash]
  if splitIdx ≤ 0 then
    (ProxyConfig.zero, some (invalidProxyConfiguration proxy))
  else
    let cfg : ProxyConfig :=
      { ProxyAddress := proxy.take splitIdx.toNat
        ServiceAddress := proxy.drop (splitIdx.toNat + 1) }
    if cfg.ProxyAddress.length = 0 ∨ cfg.ServiceAddress.length = 0 then
      (ProxyConfig.zero, some (invalidProxyConfiguration proxy))
    else
      (cfg, none)

/-- The text `s` has a `'-'` whose first occurrence splits it into a non-empty text `a`
before it and a non-empty text `b` after it. -/
def SplitsAt (s a b : GoString) : Prop :=
  a ≠ [] ∧ b ≠ [] ∧ dash ∉ a ∧ s = a ++ dash :: b

/-! ## pkg/proxy/proxy.go: errors, streams, channels -/

/-- One message frame: the bytes `RecvMsg` leaves in the reused message `f`. -/
abbrev Frame := List UInt8

/-- Go's `metadata.MD`: string keys with string-list values. -/
abbrev MD := List (String × List String)

/-- Go's `codes.Code` (a `uint32`). -/
abbrev Code := Nat

/-- The constant `codes.OK`. -/
def codes.OK : Code := 0

/-- The constant `codes.Internal`. -/
def codes.Internal : Code := 13

/-- The text `codes.Code.String()` returns in grpc-go. -/
def codeString : Code → String
  | 0 => "OK"
  | 1 => "Canceled"
  | 2 => "Unknown"
  | 3 => "InvalidArgument"
  | 4 => "DeadlineExceeded"
  | 5 => "NotFound"
  | 6 => "AlreadyExists"
  | 7 => "PermissionDenied"
  | 8 => "ResourceExhausted"
  | 9 => "FailedPrecondition"
  | 10 => "Aborted"
  | 11 => "OutOfRange"
  | 12 => "Unimplemented"
  | 13 => "Internal"
  | 14 => "Unavailable"
  | 15 => "DataLoss"
  | 16 => "Unauthenticated"
  | c => "Code(" ++ toString c ++ ")"

/-- A non-nil Go `error` value.  `EOF` is the sentinel `io.EOF`, which the program tells
apart by `==`; `status` is a gRPC status error; `other` is any other error, given by its
text. -/
inductive Error where
  | EOF
  | status (code : Code) (msg : String)
  | other (text : String)
deriving DecidableEq, Repr

/-- The method `Error()` of an error value, which `%v` prints. -/
def Error.Error : Error → String
  | .EOF => "EOF"
  | .status code msg => "rpc error: code = " ++ codeString code ++ " desc = " ++ msg
  | .other text => text

/-- grpc-go's `status.Errorf(c, format, a...)`, applied to the formatted message: `nil`
for `codes.OK`, a status error otherwise. -/
def status.Errorf (c : Code) (msg : String) : Option Error :=
  if c = codes.OK then none else some (.status c msg)

deriving instance DecidableEq for Except

/-- The inbound call, `grpc.ServerStream`, as the handler and the pumps see it: each method
is given by what its `i`-th call returns. -/
structure ServerStream where
  /-- The result of `grpc.MethodFromServerStream(serverStream)`; `none` is `ok = false`. -/
  method : Option String
  /-- The result of `metadata.FromIncomingContext(serverStream.Context())`. -/
  incoming : MD
  /-- The result of the `i`-th call `RecvMsg(f)`: the frame left in `f`, or the error. -/
  RecvMsg : Nat → Except Error Frame
  /-- The result of the `i`-th call `SendMsg(f)`. -/
  SendMsg : Nat → Frame → Option Error
  /-- The result of the `h`-th call `SendHeader(md)`. -/
  SendHeader : Nat → MD → Option Error

/-- The outbound call, `grpc.ClientStream`. -/
structure ClientStream where
  /-- The result of the `i`-th call `RecvMsg(f)`. -/
  RecvMsg : Nat → Except Error Frame
  /-- The result of the `i`-th call `SendMsg(f)`. -/
  SendMsg : Nat → Frame → Option Error
  /-- The result of the `h`-th call `Header()`. -/
  Header : Nat → Except Error MD
  /-- The result of `Trailer()`. -/
  Trailer : MD

/-- One stream operation performed by a pump, with its result. -/
inductive Event where
  | RecvMsg (r : Except Error Frame)
  | Header (r : Except Error MD)
  | SendHeader (md : MD) (r : Option Error)
  | SendMsg (f : Frame) (r : Option Error)
deriving DecidableEq

/-- The error of a failed operation, `none` for a successful one. -/
def Event.failure : Event → Option Error
  | .RecvMsg (.error e) => some e
  | .RecvMsg (.ok _) => none
  | .Header (.error e) => some e
  | .Header (.ok _) => none
  | .SendHeader _ r => r
  | .SendMsg _ r => r

/-- The metadata handed to `SendHeader`, in order. -/
def sentHeaders : List Event → List MD
  | [] => []
  | .SendHeader md _ :: evs => md :: sentHeaders evs
  | _ :: evs => sentHeaders evs

/-- A Go channel of errors with nobody receiving: capacity, buffered values, closed flag. -/
structure Chan where
  cap : Nat
  buf : List Error
  closed : Bool
deriving DecidableEq, Repr

/-- Go's `make(chan error, cap)`. -/
def make (cap : Nat) : Chan := { cap := cap, buf := [], closed := false }

/-- Where a goroutine stands: still in its loop, returned, blocked on a channel send, or
panicked (a send on a closed channel). -/
inductive Status where
  | running
  | exited
  | blocked
  | panicked
deriving DecidableEq, Repr

/-- A run of a pump goroutine: the stream operations it performed, the channel `ret` it
leaves, and where it stands. -/
structure Goroutine where
  trace : List Event
  ret : Chan
  status : Status
deriving DecidableEq

/-- The run `g`, preceded by the operations `evs`. -/
def Goroutine.after (evs : List Event) (g : Goroutine) : Goroutine :=
  { g with trace := evs ++ g.trace }

/-- The statements `ret <- err; break`, which end the goroutine: the send panics on a
closed channel, blocks on a full buffer, and otherwise buffers `err`. -/
def report (ret : Chan) (err : Error) : Goroutine :=
  if ret.closed then
    { trace := [], ret := ret, status := .panicked }
  else if ret.buf.length < ret.cap then
    { trace := [], ret := { ret with buf := ret.buf ++ [err] }, status := .exited }
  else
    { trace := [], ret := ret, status := .blocked }

/-! ## pkg/proxy/proxy.go: the two pumps -/

/-- The statement `i++` on a Go `int` of `intSize` bits.  The counter is kept as its
two's-complement bit pattern, a number below `2 ^ intSize`: the increment wraps around, and
`i == 0` holds exactly when the pattern is `0`. -/
def incr (intSize : Nat) (i : Nat) : Nat := (i + 1) % 2 ^ intSize

/-- The loop `for i := 0; ; i++` of `forwardServerToClient` (lines 174-183), for at most
`fuel` iterations, from the iteration that makes call `n` of `RecvMsg` and of `SendMsg`
with the counter at `i`. -/
def forwardServerToClient.loop (intSize : Nat) (src : ServerStream) (dst : ClientStream)
    (ret : Chan) : Nat → Nat → Nat → Goroutine
  | 0, _, _ => { trace := [], ret := ret, status := .running }
  | fuel + 1, n, i =>
    match src.RecvMsg n with
    | .error err => (report ret err).after [.RecvMsg (.error err)]
    | .ok f =>
      match dst.SendMsg n f with
      | some err => (report ret err).after [.RecvMsg (.ok f), .SendMsg f (some err)]
      | none =>
        (forwardServerToClient.loop intSize src dst ret fuel (n + 1) (incr intSize i)).after
          [.RecvMsg (.ok f), .SendMsg f none]

/-- Go's `forwardServerToClient` (lines 170-186): `ret := make(chan error, 1)` and the
goroutine, run for at most `fuel` iterations of its loop. -/
def forwardServerToClient (intSize : Nat) (src : ServerStream) (dst : ClientStream)
    (fuel : Nat) : Goroutine :=
  forwardServerToClient.loop intSize src dst (make 1) fuel 0 0

/-- The block `if i == 0 { ... }` of `forwardClientToServer` (lines 147-160), entered with
the counter at `i` after `h` earlier calls of `Header` and `SendHeader`: the operations
performed and the error that ends the pump, if any. -/
def forwardClientToServer.first (src : ClientStream) (dst : ServerStream) (i h : Nat) :
    List Event × Option Error :=
  if i = 0 then
    match src.Header h with
    | .error err => ([.Header (.error err)], some err)
    | .ok md =>
      match dst.SendHeader h md with
      | some err => ([.Header (.ok md), .SendHeader md (some err)], some err)
      | none => ([.Header (.ok md), .SendHeader md none], none)
  else ([], none)

/-- The number of calls of `Header` made once an iteration that started with the counter at
`i` and `h` earlier calls is over. -/
def headerCalls (i h : Nat) : Nat := if i = 0 then h + 1 else h

/-- The loop `for i := 0; ; i++` of `forwardClientToServer` (lines 142-165), for at most
`fuel` iterations, from the iteration that makes call `n` of `RecvMsg` and of `SendMsg`
with the counter at `i`, after `h` calls of `Header` and `SendHeader`. -/
def forwardClientToServer.loop (intSize : Nat) (src : ClientStream) (dst : ServerStream)
    (ret : Chan) : Nat → Nat → Nat → Nat → Goroutine
  | 0, _, _, _ => { trace := [], ret := ret, status := .running }
  | fuel + 1, n, i, h =>
    match src.RecvMsg n with
    | .error err => (report ret err).after [.RecvMsg (.error err)]
    | .ok f =>
      match forwardClientToServer.first src dst i h with
      | (evs, some err) => (report ret err).after (.RecvMsg (.ok f) :: evs)
      | (evs, none) =>
        match dst.SendMsg n f with
        | some err => (report ret err).after (.RecvMsg (.ok f) :: evs ++ [.SendMsg f (some err)])
        | none =>
          (forwardClientToServer.loop intSize src dst ret fuel (n + 1) (incr intSize i)
            (headerCalls i h)).after
            (.RecvMsg (.ok f) :: evs ++ [.SendMsg f none])

/-- Go's `forwardClientToServer` (lines 138-168): `ret := make(chan error, 1)` and the
goroutine, run for at most `fuel` iterations of its loop. -/
def forwardClientToServer (intSize : Nat) (src : ClientStream) (dst : ServerStream)
    (fuel : Nat) : Goroutine :=
  forwardClientToServer.loop intSize src dst (make 1) fuel 0 0 0

/-! ## pkg/proxy/proxy.go: the call handler -/

/-- The two completion channels of `serverHandler`. -/
inductive Side where
  | s2c
  | c2s
deriving DecidableEq, Repr

/-- One action of `serverHandler`. -/
inductive HEvent where
  /-- The call `grpc.NewClientStream(clientCtx, ..., fullMethodName)`, with the outgoing
  metadata of `clientCtx`. -/
  | NewClientStream (fullMethodName : String) (md : MD)
  /-- A case of the `select` fired: `err` was received from the channel of `side`. -/
  | recv (side : Side) (err : Error)
  /-- The call `clientStream.CloseSend()`. -/
  | CloseSend
  /-- The call `clientCancel()`, explicit or deferred. -/
  | clientCancel
  /-- The call `serverStream.SetTrailer(md)`. -/
  | SetTrailer (md : MD)
deriving DecidableEq, Repr

/-- How a run of `serverHandler` ends: it returns `err` at the `return` statement on source
line `line` (88, 99, 120, 129, 131 or 135), or it waits in `select` forever. -/
inductive Outcome where
  | returned (line : Nat) (err : Option Error)
  | blocked
deriving DecidableEq, Repr

/-- A run of `serverHandler`: its actions in order, and how it ends. -/
structure HandlerRun where
  trace : List HEvent
  outcome : Outcome
deriving DecidableEq, Repr

/-- The run `h`, preceded by the actions `evs`. -/
def HandlerRun.after (evs : List HEvent) (h : HandlerRun) : HandlerRun :=
  { h with trace := evs ++ h.trace }

/-- Go's `select` over the two receive cases.  Each channel is given by the values it
delivers, in order.  With both channels able to deliver, `choice` is the pick of the
runtime (`true` for `s2cErrChan`); with one, that case fires; with none, `select` never
completes.  The result is the case, the value received and the two channels afterwards. -/
def select (choice : Bool) (s2cErrChan c2sErrChan : List Error) :
    Option (Side × Error × List Error × List Error) :=
  match s2cErrChan, c2sErrChan with
  | [], [] => none
  | s2cErr :: s2cRest, [] => some (.s2c, s2cErr, s2cRest, [])
  | [], c2sErr :: c2sRest => some (.c2s, c2sErr, [], c2sRest)
  | s2cErr :: s2cRest, c2sErr :: c2sRest =>
    if choice then some (.s2c, s2cErr, s2cRest, c2sErr :: c2sRest)
    else some (.c2s, c2sErr, s2cErr :: s2cRest, c2sRest)

/-- The loop `for i := 0; i < 2; i++ { select ... }` of `serverHandler` and the
`return nil` after it (lines 108-135), with `remaining` iterations left from iteration
`i`. -/
def serverHandler.loop (clientStream : ClientStream) (choose : Nat → Bool) :
    Nat → Nat → List Error → List Error → HandlerRun
  | 0, _, _, _ => { trace := [], outcome := .returned 135 none }
  | remaining + 1, i, s2cErrChan, c2sErrChan =>
    match select (choose i) s2cErrChan c2sErrChan with
    | none => { trace := [], outcome := .blocked }
    | some (.s2c, s2cErr, s2cRest, c2sRest) =>
      if s2cErr = .EOF then
        (serverHandler.loop clientStream choose remaining (i + 1) s2cRest c2sRest).after
          [.recv .s2c s2cErr, .CloseSend]
      else
        { trace := [.recv .s2c s2cErr, .clientCancel]
          outcome := .returned 120
            (status.Errorf codes.Internal ("failed proxying s2c: " ++ s2cErr.Error)) }
    | some (.c2s, c2sErr, _, _) =>
      if c2sErr ≠ .EOF then
        { trace := [.recv .c2s c2sErr, .SetTrailer clientStream.Trailer]
          outcome := .returned 129 (some c2sErr) }
      else
        { trace := [.recv .c2s c2sErr, .SetTrailer clientStream.Trailer]
          outcome := .returned 131 none }

/-- The statement `defer clientCancel()`: when the run returns, `clientCancel` is called. -/
def deferClientCancel (h : HandlerRun) : HandlerRun :=
  match h.outcome with
  | .returned _ _ => { h with trace := h.trace ++ [.clientCancel] }
  | .blocked => h

/-- Go's `serverHandler` (lines 84-136).  `newClientStreamErr` is the error result of
`grpc.NewClientStream`.  The two pumps run as goroutines of their own and reach the handler
only through the channels they return: `s2cErrChan` and `c2sErrChan` are the values the
channel returned by `forwardServerToClient`, respectively `forwardClientToServer`, delivers.
Both pumps send only inside an `err != nil` branch, so the values are non-nil errors.
`choose i` is the pick of the runtime in iteration `i` of the loop. -/
def serverHandler (serverStream : ServerStream) (clientStream : ClientStream)
    (newClientStreamErr : Option Error) (s2cErrChan c2sErrChan : List Error)
    (choose : Nat → Bool) : HandlerRun :=
  match serverStream.method with
  | none =>
    { trace := []
      outcome := .returned 88
        (status.Errorf codes.Internal "lowLevelServerStream not exists in context") }
  | some fullMethodName =>
    let md := serverStream.incoming
    deferClientCancel
      (match newClientStreamErr with
      | some err =>
        { trace := [.NewClientStream fullMethodName md], outcome := .returned 99 (some err) }
      | none =>
        (serverHandler.loop clientStream choose 2 0 s2cErrChan c2sErrChan).after
          [.NewClientStream fullMethodName md])

/-- One proxied call: `serverHandler` on the channels its two pumps leave, each pump run
for at most `fuel` iterations of its loop. -/
def proxyCall (intSize : Nat) (serverStream : ServerStream) (clientStream : ClientStream)
    (newClientStreamErr : Option Error) (fuel : Nat) (choose : Nat → Bool) : HandlerRun :=
  serverHandler serverStream clientStream newClientStreamErr
    (forwardServerToClient intSize serverStream clientStream fuel).ret.buf
    (forwardClientToServer intSize clientStream serverStream fuel).ret.buf choose

/-- The number of outcomes the handler received from its channels. -/
def consumed : List HEvent → Nat
  | [] => 0
  | .recv _ _ :: evs => consumed evs + 1
  | _ :: evs => consumed evs

/-- The number of calls `clientStream.CloseSend()`. -/
def closeSends : List HEvent → Nat
  | [] => 0
  | .CloseSend :: evs => closeSends evs + 1
  | _ :: evs => closeSends evs

/-! ## Vocabulary of the pump properties -/

/-- What iteration `n` of `forwardServerToClient` attempts, in order, each operation with
the result the streams give it: the receive and, when a frame was received, its send. -/
def s2cAttempts (src : ServerStream) (dst : ClientStream) (n : Nat) : List Event :=
  match src.RecvMsg n with
  | .error err => [.RecvMsg (.error err)]
  | .ok f => [.RecvMsg (.ok f), .SendMsg f (dst.SendMsg n f)]

/-- What `k` iterations of `forwardServerToClient` attempt from iteration `n` on, as long
as nothing fails. -/
def s2cScript (src : ServerStream) (dst : ClientStream) : Nat → Nat → List Event
  | 0, _ => []
  | k + 1, n => s2cAttempts src dst n ++ s2cScript src dst k (n + 1)

/-- What the header block attempts with the counter at `i` after `h` earlier calls: with
the counter at `0` the header fetch and, when it gave a header, the header send. -/
def headerAttempts (src : ClientStream) (dst : ServerStream) (i h : Nat) : List Event :=
  if i = 0 then
    match src.Header h with
    | .error err => [.Header (.error err)]
    | .ok md => [.Header (.ok md), .SendHeader md (dst.SendHeader h md)]
  else []

/-- What iteration `n` of `forwardClientToServer` attempts, in order, each operation with
the result the streams give it: the receive and, when a frame was received, the header
block and the frame send. -/
def c2sAttempts (src : ClientStream) (dst : ServerStream) (n i h : Nat) : List Event :=
  match src.RecvMsg n with
  | .error err => [.RecvMsg (.error err)]
  | .ok f => .RecvMsg (.ok f) :: (headerAttempts src dst i h ++ [.SendMsg f (dst.SendMsg n f)])

/-- What `k` iterations of `forwardClientToServer` attempt from iteration `n` on, as long
as nothing fails. -/
def c2sScript (intSize : Nat) (src : ClientStream) (dst : ServerStream) :
    Nat → Nat → Nat → Nat → List Event
  | 0, _, _, _ => []
  | k + 1, n, i, h =>
    c2sAttempts src dst n i h ++
      c2sScript intSize src dst k (n + 1) (incr intSize i) (headerCalls i h)

/-- A pump whose runs are `run fuel` reports the first failure among the operations
`script`, once: `script` is `pre`, all successful, then `op`, which fails with `e`, then
`post`; and every run of more than `N` iterations performs `pre`, then `op`, then nothing
more, and exits leaving exactly `e` in its open capacity-one channel (so the send did not
block). -/
def ReportsFirstFailure (run : Nat → Goroutine) (script : List Event) (N : Nat) : Prop :=
  ∃ pre op e post, script = pre ++ op :: post ∧
    (∀ ev ∈ pre, ev.failure = none) ∧ op.failure = some e ∧
    ∀ fuel, N < fuel →
      run fuel =
        { trace := pre ++ [op], ret := { cap := 1, buf := [e], closed := false },
          status := .exited }

/-- An inbound call to `/Echo/Stream` whose caller sends the frames `[1]` and `[2]` and
then ends its request stream; every operation on it succeeds. -/
def echoServerStream : ServerStream :=
  { method := some "/Echo/Stream"
    incoming := [("k", ["v"])]
    RecvMsg := fun n => if n = 0 then .ok [1] else if n = 1 then .ok [2] else .error .EOF
    SendMsg := fun _ _ => none
    SendHeader := fun _ _ => none }

/-- An outbound call that answers the frames `[1]` and `[2]` and then ends, with header
`h` and an empty trailer; every operation on it succeeds. -/
def echoClientStream : ClientStream :=
  { RecvMsg := fun n => if n = 0 then .ok [1] else if n = 1 then .ok [2] else .error .EOF
    SendMsg := fun _ _ => none
    Header := fun _ => .ok [("h", ["1"])]
    Trailer := [] }

/-- An inbound call on which the second `SendMsg` fails. -/
def brokenServerStream : ServerStream :=
  { echoServerStream with
    SendMsg := fun n _ => if n = 1 then some (.other "transport is closing") else none }

/-- The actions of `k` iterations that each received `io.EOF` from `s2cErrChan`. -/
def halfCloses : Nat → List HEvent
  | 0 => []
  | k + 1 => .recv .s2c .EOF :: .CloseSend :: halfCloses k

/-- The error `serverHandler` builds on line 120 from the failure `E` of the
inbound→outbound pump. -/
def s2cFailure (E : Error) : Error :=
  .status codes.Internal ("failed proxying s2c: " ++ E.Error)

/-! ## ParseProxyConfig -/

/-- What `strings.Index` finds for the separator `"-"`: either no `'-'` and `-1`, or the
split of the text at its first `'-'` and the length of the part before it. -/
theorem indexFrom_dash (s : GoString) (i : Nat) :
    (dash ∉ s ∧ strings.indexFrom [dash] s i = -1) ∨
    (∃ a b, dash ∉ a ∧ s = a ++ dash :: b ∧
      strings.indexFrom [dash] s i = ((i + a.length : Nat) : Int)) := by
  induction s generalizing i with
  | nil => left; simp [strings.indexFrom, List.isPrefixOf]
  | cons c cs ih =>
    by_cases hc : c = dash
    · right
      refine ⟨[], cs, by simp, by simp [hc], ?_⟩
      simp [strings.indexFrom, List.isPrefixOf, hc]
    · rcases ih (i + 1) with ⟨hn, he⟩ | ⟨a, b, ha, hs, he⟩
      · left
        refine ⟨by simp [hn, Ne.symm hc], ?_⟩
        simp [strings.indexFrom, List.isPrefixOf, hc, he, Ne.symm hc]
      · right
        refine ⟨c :: a, b, by simp [ha, Ne.symm hc], by simp [hs], ?_⟩
        simp [strings.indexFrom, List.isPrefixOf, hc, he, Ne.symm hc]
        omega

/-- The slice bounds of `ParseProxyConfig` are within the string: a found index is below
the length, so `proxy[:splitIdx]` and `proxy[splitIdx+1:]` do not panic. -/
theorem Index_succ_le_length (s : GoString) (h : 0 ≤ strings.Index s [dash]) :
    (strings.Index s [dash]).toNat + 1 ≤ s.length := by
  unfold strings.Index at *
  rcases indexFrom_dash s 0 with ⟨_, he⟩ | ⟨a, b, _, hs, he⟩
  · rw [he] at h; omega
  · rw [he, hs]; simp

/-- The split of a text at its first `'-'` is unique. -/
theorem split_unique {a b a' b' : GoString} (ha : dash ∉ a) (ha' : dash ∉ a')
    (h : a ++ dash :: b = a' ++ dash :: b') : a = a' ∧ b = b' := by
  induction a generalizing a' with
  | nil =>
    cases a' with
    | nil => simpa using h
    | cons c cs =>
      simp at h ha'
      exact absurd h.1 ha'.1
  | cons x xs ih =>
    cases a' with
    | nil =>
      simp at h ha
      exact absurd h.1.symm ha.1
    | cons c cs =>
      simp at h ha ha'
      obtain ⟨h1, h2⟩ := ih ha.2 ha'.2 h.2
      exact ⟨by rw [h.1, h1], h2⟩

/-- `ParseProxyConfig` on a text without `'-'`. -/
theorem ParseProxyConfig_no_dash (s : GoString) (h : dash ∉ s) :
    ParseProxyConfig s = (ProxyConfig.zero, some (invalidProxyConfiguration s)) := by
  rcases indexFrom_dash s 0 with ⟨_, he⟩ | ⟨a, b, _, hs, _⟩
  · simp [ParseProxyConfig, strings.Index, he]
  · exact absurd (by simp [hs]) h

/-- `ParseProxyConfig` on a text split at its first `'-'`. -/
theorem ParseProxyConfig_split (a b : GoString) (ha : dash ∉ a) :
    ParseProxyConfig (a ++ dash :: b) =
      if a = [] ∨ b = [] then
        (ProxyConfig.zero, some (invalidProxyConfiguration (a ++ dash :: b)))
      else ({ ProxyAddress := a, ServiceAddress := b }, none) := by
  rcases indexFrom_dash (a ++ dash :: b) 0 with ⟨hn, _⟩ | ⟨a', b', ha', hs, he⟩
  · exact absurd (by simp) hn
  · obtain ⟨rfl, rfl⟩ := split_unique ha ha' hs
    have hidx : strings.Index (a ++ dash :: b) [dash] = (a.length : Int) := by
      simpa [strings.Index] using he
    by_cases h0 : a = []
    · subst h0
      simp only [List.nil_append, List.length_nil] at hidx
      simp [ParseProxyConfig, hidx]
    · have hpos : 0 < a.length := List.length_pos.mpr h0
      have hlt : ¬ ((a.length : Int) ≤ 0) := by omega
      by_cases hb : b = []
      · subst hb
        simp [ParseProxyConfig, hidx, hlt, h0]
      · simp [ParseProxyConfig, hidx, hlt, h0, hb, List.take_append_eq_append_take,
          List.drop_append_eq_append_drop]

/-- C8: `ParseProxyConfig s` succeeds exactly when `s` has a `'-'` whose first
occurrence has a non-empty text before it and a non-empty text after it; it then returns
the text before that `'-'` as `ProxyAddress` and all the text after it as
`ServiceAddress`, both non-empty and with `ProxyAddress ++ "-" ++ ServiceAddress = s`; in
every other case it returns an error together with the zero `ProxyConfig`. -/
theorem ParseProxyConfig_spec (s : GoString) :
    ((ParseProxyConfig s).2 = none ↔ ∃ a b, SplitsAt s a b) ∧
    (∀ a b, SplitsAt s a b →
      ParseProxyConfig s = ({ ProxyAddress := a, ServiceAddress := b }, none)) ∧
    ((ParseProxyConfig s).2 = none →
      (ParseProxyConfig s).1.ProxyAddress ≠ [] ∧ (ParseProxyConfig s).1.ServiceAddress ≠ [] ∧
      (ParseProxyConfig s).1.ProxyAddress ++ dash :: (ParseProxyConfig s).1.ServiceAddress = s) ∧
    ((¬ ∃ a b, SplitsAt s a b) →
      ParseProxyConfig s = (ProxyConfig.zero, some (invalidProxyConfiguration s))) := by
  have hsplit : ∀ a b, SplitsAt s a b →
      ParseProxyConfig s = ({ ProxyAddress := a, ServiceAddress := b }, none) := by
    rintro a b ⟨ha, hb, hd, rfl⟩
    rw [ParseProxyConfig_split a b hd]
    simp [ha, hb]
  have hfail : (¬ ∃ a b, SplitsAt s a b) →
      ParseProxyConfig s = (ProxyConfig.zero, some (invalidProxyConfiguration s)) := by
    intro hno
    by_cases hd : dash ∈ s
    · obtain ⟨a, b, hs, hda⟩ := List.eq_append_cons_of_mem hd
      subst hs
      rw [ParseProxyConfig_split a b hda]
      by_cases hab : a = [] ∨ b = []
      · simp [hab]
      · push_neg at hab
        exact absurd ⟨a, b, hab.1, hab.2, hda, rfl⟩ hno
    · exact ParseProxyConfig_no_dash s hd
  have hiff : (ParseProxyConfig s).2 = none ↔ ∃ a b, SplitsAt s a b := by
    constructor
    · intro hnone
      by_contra hno
      rw [hfail hno] at hnone
      simp at hnone
    · rintro ⟨a, b, hab⟩
      rw [hsplit a b hab]
  refine ⟨hiff, hsplit, ?_, hfail⟩
  intro hnone
  obtain ⟨a, b, hab⟩ := hiff.mp hnone
  rw [hsplit a b hab]
  exact ⟨hab.1, hab.2.1, hab.2.2.2.symm⟩

/-- C8 at `"localhost:5000-kubernetes:///service:5000"`, the example of the `--proxy` flag,
and at `"a-"`. -/
theorem ParseProxyConfig_spec_witness :
    ParseProxyConfig (ascii "localhost:5000-kubernetes:///service:5000") =
      ({ ProxyAddress := ascii "localhost:5000",
         ServiceAddress := ascii "kubernetes:///service:5000" }, none) ∧
    ParseProxyConfig (ascii "a-") =
      (ProxyConfig.zero, some (invalidProxyConfiguration (ascii "a-"))) :=
  ⟨(ParseProxyConfig_spec (ascii "localhost:5000-kubernetes:///service:5000")).2.1
      (ascii "localhost:5000") (ascii "kubernetes:///service:5000")
      ⟨by decide, by decide, by decide, by decide⟩,
    (ParseProxyConfig_spec (ascii "a-")).2.2.2 (by
      rintro ⟨a, b, ha, hb, hd, hs⟩
      have h := ((ParseProxyConfig_spec (ascii "a-")).1).mpr ⟨a, b, ha, hb, hd, hs⟩
      revert h
      decide)⟩

/-! ## The pumps -/

theorem report_make (e : Error) :
    report (make 1) e =
      { trace := [], ret := { cap := 1, buf := [e], closed := false }, status := .exited } := by
  simp [report, make]

theorem report_trace (ret : Chan) (e : Error) : (report ret e).trace = [] := by
  unfold report
  split
  · rfl
  · split <;> rfl

theorem after_trace (evs : List Event) (g : Goroutine) :
    (g.after evs).trace = evs ++ g.trace := rfl

/-- From any iteration, `forwardServerToClient` performs what it attempts up to the first
failure, stops there and reports it. -/
theorem s2c_loop_reports (intSize : Nat) (src : ServerStream) (dst : ClientStream)
    (ret : Chan) :
    ∀ (N n i : Nat) (err : Error), src.RecvMsg (n + N) = .error err →
      ∃ pre op e post, s2cScript src dst (N + 1) n = pre ++ op :: post ∧
        (∀ ev ∈ pre, Event.failure ev = none) ∧ Event.failure op = some e ∧
        ∀ fuel, N < fuel →
          forwardServerToClient.loop intSize src dst ret fuel n i =
            (report ret e).after (pre ++ [op]) := by
  have hrecvErr : ∀ K n i e0, src.RecvMsg n = .error e0 →
      ∃ pre op e post, s2cScript src dst (K + 1) n = pre ++ op :: post ∧
        (∀ ev ∈ pre, Event.failure ev = none) ∧ Event.failure op = some e ∧
        ∀ fuel, 0 < fuel →
          forwardServerToClient.loop intSize src dst ret fuel n i =
            (report ret e).after (pre ++ [op]) := by
    intro K n i e0 hr
    refine ⟨[], .RecvMsg (.error e0), e0, s2cScript src dst K (n + 1), ?_, by simp, rfl, ?_⟩
    · simp [s2cScript, s2cAttempts, hr]
    · intro fuel hfuel
      obtain ⟨k, rfl⟩ : ∃ k, fuel = k + 1 := ⟨fuel - 1, by omega⟩
      simp [forwardServerToClient.loop, hr]
  intro N
  induction N with
  | zero =>
    intro n i err herr
    exact hrecvErr 0 n i err (by simpa using herr)
  | succ N ih =>
    intro n i err herr
    rcases hr : src.RecvMsg n with e0 | f
    · obtain ⟨pre, op, e, post, hscript, hpre, hop, hrun⟩ := hrecvErr (N + 1) n i e0 hr
      exact ⟨pre, op, e, post, hscript, hpre, hop, fun fuel hfuel => hrun fuel (by omega)⟩
    · rcases hs : dst.SendMsg n f with _ | e1
      · obtain ⟨pre, op, e, post, hscript, hpre, hop, hrun⟩ :=
          ih (n + 1) (incr intSize i) err (by rw [← herr]; congr 1; omega)
        refine ⟨.RecvMsg (.ok f) :: .SendMsg f none :: pre, op, e, post, ?_, ?_, hop, ?_⟩
        · rw [s2cScript, hscript]
          simp [s2cAttempts, hr, hs]
        · intro ev hev
          simp at hev
          rcases hev with rfl | rfl | hev
          · rfl
          · rfl
          · exact hpre ev hev
        · intro fuel hfuel
          obtain ⟨k, rfl⟩ : ∃ k, fuel = k + 1 := ⟨fuel - 1, by omega⟩
          simp [forwardServerToClient.loop, hr, hs, hrun k (by omega), Goroutine.after]
      · refine ⟨[.RecvMsg (.ok f)], .SendMsg f (some e1), e1,
          s2cScript src dst (N + 1) (n + 1), ?_, ?_, rfl, ?_⟩
        · rw [s2cScript]
          simp [s2cAttempts, hr, hs]
        · intro ev hev
          simp at hev
          subst hev
          rfl
        · intro fuel hfuel
          obtain ⟨k, rfl⟩ : ∃ k, fuel = k + 1 := ⟨fuel - 1, by omega⟩
          simp [forwardServerToClient.loop, hr, hs]

/-- With the counter away from `0` the block `if i == 0` does nothing. -/
theorem first_pos (src : ClientStream) (dst : ServerStream) (i h : Nat) (hi : 0 < i) :
    forwardClientToServer.first src dst i h = ([], none) := by
  have : i ≠ 0 := by omega
  simp [forwardClientToServer.first, this]

/-- The block `if i == 0` performs what it attempts: either all of it, successfully, or up
to the first failure. -/
theorem first_spec (src : ClientStream) (dst : ServerStream) (i h : Nat) :
    (∃ evs, forwardClientToServer.first src dst i h = (evs, none) ∧
      headerAttempts src dst i h = evs ∧ ∀ ev ∈ evs, Event.failure ev = none) ∨
    (∃ pre op e, forwardClientToServer.first src dst i h = (pre ++ [op], some e) ∧
      headerAttempts src dst i h = pre ++ [op] ∧
      (∀ ev ∈ pre, Event.failure ev = none) ∧ Event.failure op = some e) := by
  unfold forwardClientToServer.first headerAttempts
  by_cases hi : i = 0
  · rcases hh : src.Header h with e | md
    · right
      exact ⟨[], .Header (.error e), e, by simp [hi], by simp [hi], by simp, rfl⟩
    · rcases hs : dst.SendHeader h md with _ | e
      · left
        refine ⟨[.Header (.ok md), .SendHeader md none], by simp [hi, hs], by simp [hi, hs], ?_⟩
        intro ev hev
        simp at hev
        rcases hev with rfl | rfl <;> rfl
      · right
        refine ⟨[.Header (.ok md)], .SendHeader md (some e), e, by simp [hi, hs],
          by simp [hi, hs], ?_, rfl⟩
        intro ev hev
        simp at hev
        subst hev
        rfl
  · left
    exact ⟨[], by simp [hi], by simp [hi], by simp⟩

/-- From any iteration, `forwardClientToServer` performs what it attempts up to the first
failure, stops there and reports it. -/
theorem c2s_loop_reports (intSize : Nat) (src : ClientStream) (dst : ServerStream)
    (ret : Chan) :
    ∀ (N n i h : Nat) (err : Error), src.RecvMsg (n + N) = .error err →
      ∃ pre op e post, c2sScript intSize src dst (N + 1) n i h = pre ++ op :: post ∧
        (∀ ev ∈ pre, Event.failure ev = none) ∧ Event.failure op = some e ∧
        ∀ fuel, N < fuel →
          forwardClientToServer.loop intSize src dst ret fuel n i h =
            (report ret e).after (pre ++ [op]) := by
  have hrecvErr : ∀ K n i h e0, src.RecvMsg n = .error e0 →
      ∃ pre op e post, c2sScript intSize src dst (K + 1) n i h = pre ++ op :: post ∧
        (∀ ev ∈ pre, Event.failure ev = none) ∧ Event.failure op = some e ∧
        ∀ fuel, 0 < fuel →
          forwardClientToServer.loop intSize src dst ret fuel n i h =
            (report ret e).after (pre ++ [op]) := by
    intro K n i h e0 hr
    refine ⟨[], .RecvMsg (.error e0), e0,
      c2sScript intSize src dst K (n + 1) (incr intSize i) (headerCalls i h), ?_, by simp,
      rfl, ?_⟩
    · simp [c2sScript, c2sAttempts, hr]
    · intro fuel hfuel
      obtain ⟨k, rfl⟩ : ∃ k, fuel = k + 1 := ⟨fuel - 1, by omega⟩
      simp [forwardClientToServer.loop, hr]
  intro N
  induction N with
  | zero =>
    intro n i h err herr
    exact hrecvErr 0 n i h err (by simpa using herr)
  | succ N ih =>
    intro n i h err herr
    rcases hr : src.RecvMsg n with e0 | f
    · obtain ⟨pre, op, e, post, hscript, hpre, hop, hrun⟩ := hrecvErr (N + 1) n i h e0 hr
      exact ⟨pre, op, e, post, hscript, hpre, hop, fun fuel hfuel => hrun fuel (by omega)⟩
    · rcases first_spec src dst i h with ⟨evs, hfirst, hatt, hevs⟩ |
        ⟨pre1, op1, e1, hfirst, hatt, hpre1, hop1⟩
      · rcases hs : dst.SendMsg n f with _ | e1
        · obtain ⟨pre, op, e, post, hscript, hpre, hop, hrun⟩ :=
            ih (n + 1) (incr intSize i) (headerCalls i h) err
              (by rw [← herr]; congr 1; omega)
          refine ⟨.RecvMsg (.ok f) :: evs ++ .SendMsg f none :: pre, op, e, post, ?_, ?_,
            hop, ?_⟩
          · rw [c2sScript, hscript]
            simp [c2sAttempts, hr, hs, hatt]
          · intro ev hev
            simp at hev
            rcases hev with rfl | hev | rfl | hev
            · rfl
            · exact hevs ev hev
            · rfl
            · exact hpre ev hev
          · intro fuel hfuel
            obtain ⟨k, rfl⟩ : ∃ k, fuel = k + 1 := ⟨fuel - 1, by omega⟩
            simp [forwardClientToServer.loop, hr, hs, hfirst, hrun k (by omega),
              Goroutine.after]
        · refine ⟨.RecvMsg (.ok f) :: evs, .SendMsg f (some e1), e1,
            c2sScript intSize src dst (N + 1) (n + 1) (incr intSize i) (headerCalls i h),
            ?_, ?_, rfl, ?_⟩
          · rw [c2sScript]
            simp [c2sAttempts, hr, hs, hatt]
          · intro ev hev
            simp at hev
            rcases hev with rfl | hev
            · rfl
            · exact hevs ev hev
          · intro fuel hfuel
            obtain ⟨k, rfl⟩ : ∃ k, fuel = k + 1 := ⟨fuel - 1, by omega⟩
            simp [forwardClientToServer.loop, hr, hs, hfirst]
      · refine ⟨.RecvMsg (.ok f) :: pre1, op1, e1,
          .SendMsg f (dst.SendMsg n f) ::
            c2sScript intSize src dst (N + 1) (n + 1) (incr intSize i) (headerCalls i h),
          ?_, ?_, hop1, ?_⟩
        · rw [c2sScript]
          simp [c2sAttempts, hr, hatt]
        · intro ev hev
          simp at hev
          rcases hev with rfl | hev
          · rfl
          · exact hpre1 ev hev
        · intro fuel hfuel
          obtain ⟨k, rfl⟩ : ∃ k, fuel = k + 1 := ⟨fuel - 1, by omega⟩
          simp [forwardClientToServer.loop, hr, hfirst]

/-- C9: for either pump, when some receive from the source fails (with `io.EOF` or any
other error), every long enough run performs exactly the operations the pump attempts on
these streams (receive, header fetch, header send, frame send, each with the result the
stream gives) up to the first one that fails, performs nothing after it, and exits leaving
exactly that operation's error in its open capacity-one channel: one outcome, written
without blocking, and no retry. -/
theorem pumps_report_first_failure_once (intSize : Nat) (ss : ServerStream)
    (cs : ClientStream) :
    (∀ N err, ss.RecvMsg N = .error err →
      ReportsFirstFailure (forwardServerToClient intSize ss cs)
        (s2cScript ss cs (N + 1) 0) N) ∧
    (∀ N err, cs.RecvMsg N = .error err →
      ReportsFirstFailure (forwardClientToServer intSize cs ss)
        (c2sScript intSize cs ss (N + 1) 0 0 0) N) := by
  constructor
  · intro N err herr
    obtain ⟨pre, op, e, post, hscript, hpre, hop, hrun⟩ :=
      s2c_loop_reports intSize ss cs (make 1) N 0 0 err (by simpa using herr)
    refine ⟨pre, op, e, post, hscript, hpre, hop, ?_⟩
    intro fuel hfuel
    rw [forwardServerToClient, hrun fuel hfuel, report_make]
    simp [Goroutine.after]
  · intro N err herr
    obtain ⟨pre, op, e, post, hscript, hpre, hop, hrun⟩ :=
      c2s_loop_reports intSize cs ss (make 1) N 0 0 0 err (by simpa using herr)
    refine ⟨pre, op, e, post, hscript, hpre, hop, ?_⟩
    intro fuel hfuel
    rw [forwardClientToServer, hrun fuel hfuel, report_make]
    simp [Goroutine.after]

/-- What the pumps attempt in three iterations on the example streams, the inbound one
with a failing second `SendMsg`. -/
theorem example_scripts :
    s2cScript echoServerStream echoClientStream 3 0 =
      [.RecvMsg (.ok [1]), .SendMsg [1] none, .RecvMsg (.ok [2]), .SendMsg [2] none,
        .RecvMsg (.error .EOF)] ∧
    c2sScript 64 echoClientStream brokenServerStream 3 0 0 0 =
      [.RecvMsg (.ok [1]), .Header (.ok [("h", ["1"])]), .SendHeader [("h", ["1"])] none,
        .SendMsg [1] none, .RecvMsg (.ok [2]),
        .SendMsg [2] (some (.other "transport is closing")), .RecvMsg (.error .EOF)] := by
  decide

/-- C9 on an inbound stream whose second `SendMsg` fails while the outbound stream ends
after two frames: both pumps report their first failure once. -/
theorem pumps_report_first_failure_once_witness :
    (echoServerStream.RecvMsg 2 = .error .EOF ∧
      ReportsFirstFailure (forwardServerToClient 64 echoServerStream echoClientStream)
        (s2cScript echoServerStream echoClientStream 3 0) 2) ∧
    (echoClientStream.RecvMsg 2 = .error .EOF ∧
      ReportsFirstFailure (forwardClientToServer 64 echoClientStream brokenServerStream)
        (c2sScript 64 echoClientStream brokenServerStream 3 0 0 0) 2) :=
  ⟨⟨rfl,
      (pumps_report_first_failure_once 64 echoServerStream echoClientStream).1 2 .EOF rfl⟩,
    ⟨rfl,
      (pumps_report_first_failure_once 64 brokenServerStream echoClientStream).2 2 .EOF
        rfl⟩⟩

/-- The run of `forwardClientToServer` towards the inbound stream whose second `SendMsg`
fails: the failed send is the last operation and its error is the outcome. -/
theorem broken_send_run :
    forwardClientToServer 64 echoClientStream brokenServerStream 3 =
      { trace := [.RecvMsg (.ok [1]), .Header (.ok [("h", ["1"])]),
          .SendHeader [("h", ["1"])] none, .SendMsg [1] none, .RecvMsg (.ok [2]),
          .SendMsg [2] (some (.other "transport is closing"))]
        ret := { cap := 1, buf := [.other "transport is closing"], closed := false }
        status := .exited } := by
  decide

/-- While the counter stays away from `0`, `forwardClientToServer` sends no header. -/
theorem c2s_loop_no_header (intSize : Nat) (src : ClientStream) (dst : ServerStream)
    (ret : Chan) :
    ∀ (K n i h : Nat), 1 ≤ i → i + K ≤ 2 ^ intSize →
      sentHeaders (forwardClientToServer.loop intSize src dst ret K n i h).trace = [] := by
  intro K
  induction K with
  | zero => intro n i h _ _; rfl
  | succ k ih =>
    intro n i h hi hK
    unfold forwardClientToServer.loop
    rw [first_pos src dst i h (by omega)]
    rcases hr : src.RecvMsg n with e0 | f
    · simp [after_trace, report_trace, sentHeaders]
    · rcases hs : dst.SendMsg n f with _ | e1
      · have hrest : sentHeaders (forwardClientToServer.loop intSize src dst ret k (n + 1)
            (incr intSize i) (headerCalls i h)).trace = [] := by
          cases k with
          | zero => rfl
          | succ k' =>
            have hincr : incr intSize i = i + 1 := by
              unfold incr
              exact Nat.mod_eq_of_lt (by omega)
            rw [hincr]
            exact ih (n + 1) (i + 1) (headerCalls i h) (by omega) (by omega)
        simp [hs, after_trace, sentHeaders, hrest]
      · simp [hs, after_trace, report_trace, sentHeaders]

/-- The shapes of a run of `forwardClientToServer` that enters its loop and ends before
the counter wraps around. -/
theorem c2s_trace_cases (intSize : Nat) (src : ClientStream) (dst : ServerStream) (k : Nat)
    (hw : 1 ≤ intSize) (hk : k + 1 ≤ 2 ^ intSize) :
    (∃ e, src.RecvMsg 0 = .error e ∧
      (forwardClientToServer intSize src dst (k + 1)).trace = [.RecvMsg (.error e)]) ∨
    (∃ f e, src.RecvMsg 0 = .ok f ∧ src.Header 0 = .error e ∧
      (forwardClientToServer intSize src dst (k + 1)).trace =
        [.RecvMsg (.ok f), .Header (.error e)]) ∨
    (∃ f md e, src.RecvMsg 0 = .ok f ∧ src.Header 0 = .ok md ∧
      dst.SendHeader 0 md = some e ∧
      (forwardClientToServer intSize src dst (k + 1)).trace =
        [.RecvMsg (.ok f), .Header (.ok md), .SendHeader md (some e)]) ∨
    (∃ f md rest, src.RecvMsg 0 = .ok f ∧ src.Header 0 = .ok md ∧
      dst.SendHeader 0 md = none ∧
      (forwardClientToServer intSize src dst (k + 1)).trace =
        .RecvMsg (.ok f) :: .Header (.ok md) :: .SendHeader md none ::
          .SendMsg f (dst.SendMsg 0 f) :: rest ∧ sentHeaders rest = []) := by
  have h2 : 2 ≤ 2 ^ intSize := by
    calc 2 = 2 ^ 1 := by norm_num
      _ ≤ 2 ^ intSize := Nat.pow_le_pow_right (by norm_num) hw
  have hincr : incr intSize 0 = 1 := by
    unfold incr
    exact Nat.mod_eq_of_lt (by omega)
  unfold forwardClientToServer forwardClientToServer.loop forwardClientToServer.first
  rcases hr : src.RecvMsg 0 with e0 | f
  · left
    exact ⟨e0, rfl, by simp [after_trace, report_trace]⟩
  · right
    rcases hh : src.Header 0 with e1 | md
    · left
      exact ⟨f, e1, rfl, rfl, by simp [after_trace, report_trace]⟩
    · right
      rcases hsh : dst.SendHeader 0 md with _ | e2
      · right
        rcases hs : dst.SendMsg 0 f with _ | e3
        · refine ⟨f, md,
            (forwardClientToServer.loop intSize src dst (make 1) k 1 (incr intSize 0)
              (headerCalls 0 0)).trace,
            rfl, rfl, hsh, by simp [after_trace, hs, hsh], ?_⟩
          rw [hincr]
          exact c2s_loop_no_header intSize src dst (make 1) k 1 1 (headerCalls 0 0)
            (le_refl 1) (by omega)
        · exact ⟨f, md, [], rfl, rfl, hsh, by simp [after_trace, report_trace, hs, hsh], rfl⟩
      · left
        exact ⟨f, md, e2, rfl, rfl, hsh, by simp [after_trace, report_trace, hsh]⟩

/-- Up to the wrap-around of the counter the header is sent as intended: in every run of
`forwardClientToServer` of at most `2 ^ intSize` iterations, `SendHeader` is called at
most once and every `SendMsg` comes after a successful `SendHeader`; when the first receive
succeeds and `Header()` succeeds, `SendHeader` is called exactly once, right after them,
and when it succeeds the next operation is the `SendMsg` of the first frame; when the first
receive fails, or `Header()` fails, it is never called. -/
theorem header_sent_once_before_wraparound (intSize : Nat) (src : ClientStream)
    (dst : ServerStream) (fuel : Nat) (hw : 1 ≤ intSize) (hfuel : fuel ≤ 2 ^ intSize) :
    (sentHeaders (forwardClientToServer intSize src dst fuel).trace).length ≤ 1 ∧
    (∀ pre f r post,
      (forwardClientToServer intSize src dst fuel).trace = pre ++ .SendMsg f r :: post →
      ∃ md, Event.SendHeader md none ∈ pre) ∧
    (∀ f md, 0 < fuel → src.RecvMsg 0 = .ok f → src.Header 0 = .ok md →
      sentHeaders (forwardClientToServer intSize src dst fuel).trace = [md] ∧
      ∃ rest,
        (forwardClientToServer intSize src dst fuel).trace =
          .RecvMsg (.ok f) :: .Header (.ok md) :: .SendHeader md (dst.SendHeader 0 md) ::
            rest ∧
        (dst.SendHeader 0 md = none →
          ∃ rest', rest = .SendMsg f (dst.SendMsg 0 f) :: rest') ∧
        (∀ e, dst.SendHeader 0 md = some e → rest = [])) ∧
    (∀ e, src.RecvMsg 0 = .error e →
      sentHeaders (forwardClientToServer intSize src dst fuel).trace = []) ∧
    (∀ e, src.Header 0 = .error e →
      sentHeaders (forwardClientToServer intSize src dst fuel).trace = []) := by
  cases fuel with
  | zero =>
    have htr : (forwardClientToServer intSize src dst 0).trace = [] := rfl
    rw [htr]
    refine ⟨by simp [sentHeaders], ?_, ?_, by simp [sentHeaders], by simp [sentHeaders]⟩
    · intro pre f r post h
      simp at h
    · intro f md h
      omega
  | succ k =>
    rcases c2s_trace_cases intSize src dst k hw hfuel with ⟨e, hr, htr⟩ |
      ⟨f, e, hr, hh, htr⟩ | ⟨f, md, e, hr, hh, hsh, htr⟩ |
      ⟨f, md, rest, hr, hh, hsh, htr, hrest⟩
    · rw [htr]
      refine ⟨by simp [sentHeaders], ?_, ?_, by simp [sentHeaders], by simp [sentHeaders]⟩
      · intro pre f r post h
        have hm : Event.SendMsg f r ∈ [Event.RecvMsg (.error e)] := by rw [h]; simp
        simp at hm
      · intro f md _ hf
        rw [hr] at hf
        cases hf
    · rw [htr]
      refine ⟨by simp [sentHeaders], ?_, ?_, by simp [sentHeaders], by simp [sentHeaders]⟩
      · intro pre g r post h
        have hm : Event.SendMsg g r ∈ [Event.RecvMsg (.ok f), Event.Header (.error e)] := by
          rw [h]; simp
        simp at hm
      · intro g md _ _ hmd
        rw [hh] at hmd
        cases hmd
    · rw [htr]
      refine ⟨by simp [sentHeaders], ?_, ?_, ?_, ?_⟩
      · intro pre g r post h
        have hm : Event.SendMsg g r ∈
            [Event.RecvMsg (.ok f), Event.Header (.ok md), Event.SendHeader md (some e)] := by
          rw [h]; simp
        simp at hm
      · intro g md' _ hg hmd
        rw [hr] at hg
        rw [hh] at hmd
        cases hg
        cases hmd
        refine ⟨by simp [sentHeaders], [], by simp [hsh], by simp [hsh], by simp⟩
      · intro e' he'
        rw [hr] at he'
        cases he'
      · intro e' he'
        rw [hh] at he'
        cases he'
    · rw [htr]
      have hcount : sentHeaders (Event.RecvMsg (.ok f) :: Event.Header (.ok md) ::
          Event.SendHeader md none :: Event.SendMsg f (dst.SendMsg 0 f) :: rest) = [md] := by
        simp [sentHeaders, hrest]
      refine ⟨by simp [hcount], ?_, ?_, ?_, ?_⟩
      · intro pre g r post h
        refine ⟨md, ?_⟩
        rcases pre with _ | ⟨p1, _ | ⟨p2, _ | ⟨p3, pre⟩⟩⟩
        · simp at h
        · simp at h
        · simp at h
        · simp at h
          simp [← h.2.2.1]
      · intro g md' _ hg hmd
        rw [hr] at hg
        rw [hh] at hmd
        cases hg
        cases hmd
        refine ⟨hcount, _, by simp [hsh], fun _ => ⟨rest, rfl⟩, ?_⟩
        intro e he
        rw [hsh] at he
        cases he
      · intro e' he'
        rw [hr] at he'
        cases he'
      · intro e' he'
        rw [hh] at he'
        cases he'

/-- At every moment a pump either is still in its loop with an empty channel, or has exited
with exactly one error in its channel; the channel is never closed and the send never
blocks. -/
theorem pump_chan_invariant (intSize : Nat) (ss : ServerStream) (cs : ClientStream)
    (fuel : Nat) :
    (((forwardServerToClient intSize ss cs fuel).status = .running ∧
        (forwardServerToClient intSize ss cs fuel).ret = make 1) ∨
      ∃ e, (forwardServerToClient intSize ss cs fuel).status = .exited ∧
        (forwardServerToClient intSize ss cs fuel).ret =
          { cap := 1, buf := [e], closed := false }) ∧
    (((forwardClientToServer intSize cs ss fuel).status = .running ∧
        (forwardClientToServer intSize cs ss fuel).ret = make 1) ∨
      ∃ e, (forwardClientToServer intSize cs ss fuel).status = .exited ∧
        (forwardClientToServer intSize cs ss fuel).ret =
          { cap := 1, buf := [e], closed := false }) := by
  have hs : ∀ fuel n i,
      ((forwardServerToClient.loop intSize ss cs (make 1) fuel n i).status = .running ∧
        (forwardServerToClient.loop intSize ss cs (make 1) fuel n i).ret = make 1) ∨
      ∃ e, (forwardServerToClient.loop intSize ss cs (make 1) fuel n i).status = .exited ∧
        (forwardServerToClient.loop intSize ss cs (make 1) fuel n i).ret =
          { cap := 1, buf := [e], closed := false } := by
    intro fuel
    induction fuel with
    | zero => intro n i; left; exact ⟨rfl, rfl⟩
    | succ k ih =>
      intro n i
      unfold forwardServerToClient.loop
      rcases hr : ss.RecvMsg n with e0 | f
      · right; exact ⟨e0, by simp [report_make, Goroutine.after]⟩
      · rcases hsm : cs.SendMsg n f with _ | e1
        · simpa [hsm, Goroutine.after] using ih (n + 1) (incr intSize i)
        · right; exact ⟨e1, by simp [hsm, report_make, Goroutine.after]⟩
  have hc : ∀ fuel n i h,
      ((forwardClientToServer.loop intSize cs ss (make 1) fuel n i h).status = .running ∧
        (forwardClientToServer.loop intSize cs ss (make 1) fuel n i h).ret = make 1) ∨
      ∃ e, (forwardClientToServer.loop intSize cs ss (make 1) fuel n i h).status = .exited ∧
        (forwardClientToServer.loop intSize cs ss (make 1) fuel n i h).ret =
          { cap := 1, buf := [e], closed := false } := by
    intro fuel
    induction fuel with
    | zero => intro n i h; left; exact ⟨rfl, rfl⟩
    | succ k ih =>
      intro n i h
      unfold forwardClientToServer.loop
      rcases hr : cs.RecvMsg n with e0 | f
      · right; exact ⟨e0, by simp [report_make, Goroutine.after]⟩
      · rcases first_spec cs ss i h with ⟨evs, hfirst, _, _⟩ |
          ⟨pre1, op1, e1, hfirst, _, _, _⟩
        · rcases hsm : ss.SendMsg n f with _ | e1
          · simpa [hsm, hfirst, Goroutine.after] using
              ih (n + 1) (incr intSize i) (headerCalls i h)
          · right; exact ⟨e1, by simp [hsm, hfirst, report_make, Goroutine.after]⟩
        · right; exact ⟨e1, by simp [hfirst, report_make, Goroutine.after]⟩
  exact ⟨hs fuel 0 0, hc fuel 0 0 0⟩

/-! ## The call handler -/

/-- The shapes of a run of the arbitration loop: some iterations that received `io.EOF`
from `s2cErrChan`, and then the wait, the fall-through, the failure of the
inbound→outbound pump, or the outcome of the outbound→inbound pump. -/
theorem loop_shape (cs : ClientStream) (choose : Nat → Bool) :
    ∀ (n i : Nat) (s2c c2s : List Error), ∃ k, k ≤ n ∧
      (serverHandler.loop cs choose n i s2c c2s =
          { trace := halfCloses k, outcome := .blocked } ∨
        (k = n ∧ serverHandler.loop cs choose n i s2c c2s =
          { trace := halfCloses k, outcome := .returned 135 none }) ∨
        (∃ E, E ≠ .EOF ∧ serverHandler.loop cs choose n i s2c c2s =
          { trace := halfCloses k ++ [.recv .s2c E, .clientCancel]
            outcome := .returned 120 (some (s2cFailure E)) }) ∨
        (∃ E, E ≠ .EOF ∧ serverHandler.loop cs choose n i s2c c2s =
          { trace := halfCloses k ++ [.recv .c2s E, .SetTrailer cs.Trailer]
            outcome := .returned 129 (some E) }) ∨
        serverHandler.loop cs choose n i s2c c2s =
          { trace := halfCloses k ++ [.recv .c2s .EOF, .SetTrailer cs.Trailer]
            outcome := .returned 131 none }) := by
  intro n
  induction n with
  | zero =>
    intro i s2c c2s
    exact ⟨0, le_refl _, Or.inr (Or.inl ⟨rfl, rfl⟩)⟩
  | succ n ih =>
    intro i s2c c2s
    unfold serverHandler.loop
    rcases hsel : select (choose i) s2c c2s with _ | ⟨side, e, s2cRest, c2sRest⟩
    · exact ⟨0, by omega, Or.inl rfl⟩
    · cases side with
      | s2c =>
        by_cases he : e = .EOF
        · subst he
          obtain ⟨k, hk, h⟩ := ih (i + 1) s2cRest c2sRest
          refine ⟨k + 1, by omega, ?_⟩
          rcases h with h | ⟨hkn, h⟩ | ⟨E, hE, h⟩ | ⟨E, hE, h⟩ | h
          · left; simp [h, HandlerRun.after, halfCloses]
          · right; left; exact ⟨by omega, by simp [h, HandlerRun.after, halfCloses]⟩
          · right; right; left
            exact ⟨E, hE, by simp [h, HandlerRun.after, halfCloses]⟩
          · right; right; right; left
            exact ⟨E, hE, by simp [h, HandlerRun.after, halfCloses]⟩
          · right; right; right; right
            simp [h, HandlerRun.after, halfCloses]
        · refine ⟨0, by omega, Or.inr (Or.inr (Or.inl ⟨e, he, ?_⟩))⟩
          simp [he, halfCloses, s2cFailure, status.Errorf, codes.Internal, codes.OK]
      | c2s =>
        by_cases he : e = .EOF
        · subst he
          refine ⟨0, by omega, Or.inr (Or.inr (Or.inr (Or.inr ?_)))⟩
          simp [halfCloses]
        · refine ⟨0, by omega, Or.inr (Or.inr (Or.inr (Or.inl ⟨e, he, ?_⟩)))⟩
          simp [he, halfCloses]

theorem consumed_append (a b : List HEvent) : consumed (a ++ b) = consumed a + consumed b := by
  induction a with
  | nil => simp [consumed]
  | cons ev a ih =>
    cases ev <;> simp [consumed, ih]
    omega

/-- The error built on line 120 is not the error it wraps: its message is longer. -/
theorem s2cFailure_ne (E : Error) : s2cFailure E ≠ E := by
  intro h
  cases E with
  | EOF => simp [s2cFailure] at h
  | other text => simp [s2cFailure] at h
  | status code msg =>
    simp only [s2cFailure, Error.Error, Error.status.injEq] at h
    have hlen := congrArg String.length h.2
    simp only [String.length_append] at hlen
    have h21 : "failed proxying s2c: ".length = 21 := by decide
    omega

/-- The shapes of a run of `serverHandler`: the two early returns, or the loop shapes,
after the call that opens the outbound stream and before the deferred `clientCancel`. -/
theorem serverHandler_shape (ss : ServerStream) (cs : ClientStream)
    (openErr : Option Error) (s2c c2s : List Error) (choose : Nat → Bool) :
    (ss.method = none ∧ serverHandler ss cs openErr s2c c2s choose =
      { trace := []
        outcome := .returned 88
          (some (.status codes.Internal "lowLevelServerStream not exists in context")) }) ∨
    (∃ m err, ss.method = some m ∧ openErr = some err ∧
      serverHandler ss cs openErr s2c c2s choose =
        { trace := [.NewClientStream m ss.incoming, .clientCancel]
          outcome := .returned 99 (some err) }) ∨
    (∃ m k, ss.method = some m ∧ openErr = none ∧ k ≤ 2 ∧
      (serverHandler ss cs openErr s2c c2s choose =
          { trace := .NewClientStream m ss.incoming :: halfCloses k, outcome := .blocked } ∨
        (k = 2 ∧ serverHandler ss cs openErr s2c c2s choose =
          { trace := .NewClientStream m ss.incoming :: halfCloses k ++ [.clientCancel]
            outcome := .returned 135 none }) ∨
        (∃ E, E ≠ .EOF ∧ serverHandler ss cs openErr s2c c2s choose =
          { trace := .NewClientStream m ss.incoming :: halfCloses k ++
              [.recv .s2c E, .clientCancel, .clientCancel]
            outcome := .returned 120 (some (s2cFailure E)) }) ∨
        (∃ E, E ≠ .EOF ∧ serverHandler ss cs openErr s2c c2s choose =
          { trace := .NewClientStream m ss.incoming :: halfCloses k ++
              [.recv .c2s E, .SetTrailer cs.Trailer, .clientCancel]
            outcome := .returned 129 (some E) }) ∨
        serverHandler ss cs openErr s2c c2s choose =
          { trace := .NewClientStream m ss.incoming :: halfCloses k ++
              [.recv .c2s .EOF, .SetTrailer cs.Trailer, .clientCancel]
            outcome := .returned 131 none })) := by
  unfold serverHandler
  rcases hm : ss.method with _ | m
  · left
    exact ⟨rfl, by simp [status.Errorf, codes.Internal, codes.OK]⟩
  · right
    rcases openErr with _ | err
    · right
      obtain ⟨k, hk, h⟩ := loop_shape cs choose 2 0 s2c c2s
      refine ⟨m, k, rfl, rfl, hk, ?_⟩
      rcases h with h | ⟨hkn, h⟩ | ⟨E, hE, h⟩ | ⟨E, hE, h⟩ | h
      · left; simp [h, HandlerRun.after, deferClientCancel]
      · right; left; exact ⟨hkn, by simp [h, HandlerRun.after, deferClientCancel]⟩
      · right; right; left
        exact ⟨E, hE, by simp [h, HandlerRun.after, deferClientCancel]⟩
      · right; right; right; left
        exact ⟨E, hE, by simp [h, HandlerRun.after, deferClientCancel]⟩
      · right; right; right; right
        simp [h, HandlerRun.after, deferClientCancel]
    · left
      exact ⟨m, err, rfl, rfl, by simp [deferClientCancel]⟩

theorem serverHandler_opened (ss : ServerStream) (cs : ClientStream) (m : String)
    (s2c c2s : List Error) (choose : Nat → Bool) (hm : ss.method = some m) :
    serverHandler ss cs none s2c c2s choose =
      deferClientCancel
        ((serverHandler.loop cs choose 2 0 s2c c2s).after
          [.NewClientStream m ss.incoming]) := by
  simp [serverHandler, hm]

/-- C4: when the first outcome `serverHandler` receives is the `io.EOF` of the
inbound→outbound pump (that pump's only report; the other pump has reported nothing yet,
so the first `select` takes `s2cErrChan`), it calls `CloseSend` exactly once and does not
return there: it waits in the second `select`, returns only after it has received the
outcome `E` of the outbound→inbound pump, and its result is `nil` when `E` is `io.EOF` and
`E` otherwise. -/
theorem half_close_waits_for_backend (ss : ServerStream) (cs : ClientStream) (m : String)
    (c2s : List Error) (choose : Nat → Bool) (hm : ss.method = some m)
    (hfirst : choose 0 = true ∨ c2s = []) :
    closeSends (serverHandler ss cs none [.EOF] c2s choose).trace = 1 ∧
    (c2s = [] →
      serverHandler ss cs none [.EOF] c2s choose =
        { trace := [.NewClientStream m ss.incoming, .recv .s2c .EOF, .CloseSend]
          outcome := .blocked }) ∧
    (∀ E rest, c2s = E :: rest →
      serverHandler ss cs none [.EOF] c2s choose =
        { trace := [.NewClientStream m ss.incoming, .recv .s2c .EOF, .CloseSend,
            .recv .c2s E, .SetTrailer cs.Trailer, .clientCancel]
          outcome := if E ≠ .EOF then .returned 129 (some E) else .returned 131 none }) := by
  rw [serverHandler_opened ss cs m _ _ choose hm]
  cases c2s with
  | nil =>
    refine ⟨?_, fun _ => ?_, fun E rest h => by cases h⟩ <;>
      simp [serverHandler.loop, select, HandlerRun.after, deferClientCancel, closeSends]
  | cons E rest =>
    have hch : choose 0 = true := by
      rcases hfirst with h | h
      · exact h
      · cases h
    refine ⟨?_, fun h => ?_, fun E' rest' h => ?_⟩
    · by_cases hE : E = .EOF <;>
        simp [serverHandler.loop, select, hch, hE, HandlerRun.after, deferClientCancel,
          closeSends]
    · cases h
    · cases h
      by_cases hE : E = .EOF <;>
        simp [serverHandler.loop, select, hch, hE, HandlerRun.after, deferClientCancel]

/-- C4 on a call whose request side ends cleanly first and whose backend later fails:
one `CloseSend`, and the result is the backend's error. -/
theorem half_close_waits_for_backend_witness :
    (echoServerStream.method = some "/Echo/Stream" ∧
      ((fun _ => true) 0 = true ∨ [Error.status 14 "backend down"] = [])) ∧
    closeSends (serverHandler echoServerStream echoClientStream none [.EOF]
      [.status 14 "backend down"] (fun _ => true)).trace = 1 ∧
    (serverHandler echoServerStream echoClientStream none [.EOF]
      [.status 14 "backend down"] (fun _ => true)).outcome =
        .returned 129 (some (.status 14 "backend down")) :=
  ⟨⟨rfl, Or.inl rfl⟩,
    (half_close_waits_for_backend echoServerStream echoClientStream "/Echo/Stream"
      [.status 14 "backend down"] (fun _ => true) rfl (Or.inl rfl)).1,
    by
      rw [(half_close_waits_for_backend echoServerStream echoClientStream "/Echo/Stream"
        [.status 14 "backend down"] (fun _ => true) rfl (Or.inl rfl)).2.2
        (.status 14 "backend down") [] rfl]
      decide⟩

/-- What `select` takes, by the contents of the two channels. -/
theorem select_cases (ch : Bool) (s2c c2s : List Error) :
    (s2c = [] ∧ c2s = [] ∧ select ch s2c c2s = none) ∨
    (∃ E rest, s2c = E :: rest ∧ (c2s = [] ∨ ch = true) ∧
      select ch s2c c2s = some (.s2c, E, rest, c2s)) ∨
    (∃ E rest, c2s = E :: rest ∧ (s2c = [] ∨ ch = false) ∧
      select ch s2c c2s = some (.c2s, E, s2c, rest)) := by
  rcases s2c with _ | ⟨a, srest⟩ <;> rcases c2s with _ | ⟨b, crest⟩ <;> cases ch <;>
    simp [select]

theorem select_s2c (ch : Bool) (E : Error) (rest c2s : List Error)
    (h : c2s = [] ∨ ch = true) :
    select ch (E :: rest) c2s = some (.s2c, E, rest, c2s) := by
  rcases c2s with _ | ⟨b, crest⟩
  · rfl
  · rcases h with h | h
    · cases h
    · simp [select, h]

theorem select_c2s (ch : Bool) (E : Error) (s2c rest : List Error)
    (h : s2c = [] ∨ ch = false) :
    select ch s2c (E :: rest) = some (.c2s, E, s2c, rest) := by
  rcases s2c with _ | ⟨a, srest⟩
  · rfl
  · rcases h with h | h
    · cases h
    · simp [select, h]

/-- The run in which the first `select` receives `E` from `c2sErrChan`. -/
theorem run_c2s_first (ss : ServerStream) (cs : ClientStream) (m : String)
    (s2c rest : List Error) (choose : Nat → Bool) (E : Error) (hm : ss.method = some m)
    (h0 : s2c = [] ∨ choose 0 = false) :
    serverHandler ss cs none s2c (E :: rest) choose =
      { trace := [.NewClientStream m ss.incoming, .recv .c2s E, .SetTrailer cs.Trailer,
          .clientCancel]
        outcome := if E ≠ .EOF then .returned 129 (some E) else .returned 131 none } := by
  rw [serverHandler_opened ss cs m _ _ choose hm]
  by_cases hE : E = .EOF <;>
    simp [serverHandler.loop, select_c2s _ _ _ _ h0, hE, HandlerRun.after, deferClientCancel]

/-- The run in which the first `select` receives `io.EOF` from `s2cErrChan` and the second
receives `E` from `c2sErrChan`. -/
theorem run_c2s_second (ss : ServerStream) (cs : ClientStream) (m : String)
    (srest rest : List Error) (choose : Nat → Bool) (E : Error) (hm : ss.method = some m)
    (h0 : choose 0 = true) (h1 : srest = [] ∨ choose 1 = false) :
    serverHandler ss cs none (.EOF :: srest) (E :: rest) choose =
      { trace := [.NewClientStream m ss.incoming, .recv .s2c .EOF, .CloseSend,
          .recv .c2s E, .SetTrailer cs.Trailer, .clientCancel]
        outcome := if E ≠ .EOF then .returned 129 (some E) else .returned 131 none } := by
  rw [serverHandler_opened ss cs m _ _ choose hm]
  by_cases hE : E = .EOF <;>
    simp [serverHandler.loop, select_s2c _ _ _ _ (Or.inr h0), select_c2s _ _ _ _ h1, hE,
      HandlerRun.after, deferClientCancel]

/-- The run in which the first `select` receives a failure `E` from `s2cErrChan`. -/
theorem run_s2c_first (ss : ServerStream) (cs : ClientStream) (m : String)
    (srest c2s : List Error) (choose : Nat → Bool) (E : Error) (hm : ss.method = some m)
    (hE : E ≠ .EOF) (h0 : c2s = [] ∨ choose 0 = true) :
    serverHandler ss cs none (E :: srest) c2s choose =
      { trace := [.NewClientStream m ss.incoming, .recv .s2c E, .clientCancel, .clientCancel]
        outcome := .returned 120 (some (s2cFailure E)) } := by
  rw [serverHandler_opened ss cs m _ _ choose hm]
  simp [serverHandler.loop, select_s2c _ _ _ _ h0, hE, HandlerRun.after, deferClientCancel,
    s2cFailure, status.Errorf, codes.Internal, codes.OK]

/-- The run in which both `select`s receive from `s2cErrChan`: `io.EOF`, then a failure
`E`. -/
theorem run_s2c_second (ss : ServerStream) (cs : ClientStream) (m : String)
    (srest c2s : List Error) (choose : Nat → Bool) (E : Error) (hm : ss.method = some m)
    (hE : E ≠ .EOF) (h0 : c2s = [] ∨ choose 0 = true) (h1 : c2s = [] ∨ choose 1 = true) :
    serverHandler ss cs none (.EOF :: E :: srest) c2s choose =
      { trace := [.NewClientStream m ss.incoming, .recv .s2c .EOF, .CloseSend,
          .recv .s2c E, .clientCancel, .clientCancel]
        outcome := .returned 120 (some (s2cFailure E)) } := by
  rw [serverHandler_opened ss cs m _ _ choose hm]
  simp [serverHandler.loop, select_s2c _ _ _ _ h0, select_s2c _ _ _ _ h1, hE,
    HandlerRun.after, deferClientCancel, s2cFailure, status.Errorf, codes.Internal, codes.OK]

/-- `SetTrailer` is called only with the outbound trailer and only in a run that receives
from `c2sErrChan`, in the first `select` or in the second after `io.EOF` from
`s2cErrChan`. -/
theorem setTrailer_only_on_c2s (ss : ServerStream) (cs : ClientStream)
    (openErr : Option Error) (s2c c2s : List Error) (choose : Nat → Bool) (md : MD)
    (hmd : HEvent.SetTrailer md ∈ (serverHandler ss cs openErr s2c c2s choose).trace) :
    md = cs.Trailer ∧ openErr = none ∧ (∃ m, ss.method = some m) ∧
    ∃ E rest, c2s = E :: rest ∧
      ((s2c = [] ∨ choose 0 = false) ∨
        ∃ srest, s2c = .EOF :: srest ∧ choose 0 = true ∧ (srest = [] ∨ choose 1 = false)) := by
  rcases hm : ss.method with _ | m
  · simp [serverHandler, hm] at hmd
  · rcases openErr with _ | err
    · rw [serverHandler_opened ss cs m _ _ choose hm] at hmd
      rcases select_cases (choose 0) s2c c2s with ⟨_, _, h0⟩ | ⟨E, srest, hs, hc0, h0⟩ |
        ⟨E, rest, hc, hs0, h0⟩
      · simp [serverHandler.loop, h0, HandlerRun.after, deferClientCancel] at hmd
      · by_cases hE : E = .EOF
        · subst hE
          rcases select_cases (choose 1) srest c2s with ⟨_, _, h1⟩ | ⟨E', r, hs', hc1, h1⟩ |
            ⟨E', rest, hc, hs1, h1⟩
          · simp [serverHandler.loop, h0, h1, HandlerRun.after, deferClientCancel] at hmd
          · by_cases hE' : E' = .EOF <;>
              simp [serverHandler.loop, h0, h1, hE', HandlerRun.after, deferClientCancel]
                at hmd
          · have hch : choose 0 = true := by
              rcases hc0 with h | h
              · rw [hc] at h; cases h
              · exact h
            refine ⟨?_, rfl, ⟨m, rfl⟩, E', rest, hc, Or.inr ⟨srest, hs, hch, hs1⟩⟩
            by_cases hE' : E' = .EOF <;>
              simp [serverHandler.loop, h0, h1, hE', HandlerRun.after, deferClientCancel]
                at hmd <;> exact hmd
        · simp [serverHandler.loop, h0, hE, HandlerRun.after, deferClientCancel] at hmd
      · refine ⟨?_, rfl, ⟨m, rfl⟩, E, rest, hc, Or.inl hs0⟩
        by_cases hE : E = .EOF <;>
          simp [serverHandler.loop, h0, hE, HandlerRun.after, deferClientCancel] at hmd <;>
          exact hmd
    · simp [serverHandler, hm, deferClientCancel] at hmd

/-- C3: whenever `serverHandler` receives an error `E` other than `io.EOF` from the
outbound→inbound pump, it calls `SetTrailer` with the outbound trailer, returns, and
returns exactly `E`; this holds both when `c2sErrChan` is taken by the first `select` (the
other pump has not reported, or the runtime picks `c2sErrChan`) and when it is taken by
the second, after the `io.EOF` of the other pump. -/
theorem c2s_failure_returned_verbatim (ss : ServerStream) (cs : ClientStream) (m : String)
    (s2c rest : List Error) (choose : Nat → Bool) (E : Error) (hm : ss.method = some m)
    (hE : E ≠ .EOF) :
    ((s2c = [] ∨ choose 0 = false) →
      serverHandler ss cs none s2c (E :: rest) choose =
        { trace := [.NewClientStream m ss.incoming, .recv .c2s E, .SetTrailer cs.Trailer,
            .clientCancel]
          outcome := .returned 129 (some E) }) ∧
    (∀ srest, s2c = .EOF :: srest → choose 0 = true → (srest = [] ∨ choose 1 = false) →
      serverHandler ss cs none s2c (E :: rest) choose =
        { trace := [.NewClientStream m ss.incoming, .recv .s2c .EOF, .CloseSend,
            .recv .c2s E, .SetTrailer cs.Trailer, .clientCancel]
          outcome := .returned 129 (some E) }) := by
  constructor
  · intro h0
    rw [run_c2s_first ss cs m s2c rest choose E hm h0]
    simp [hE]
  · rintro srest rfl h0 h1
    rw [run_c2s_second ss cs m srest rest choose E hm h0 h1]
    simp [hE]

/-- C3 on a call whose backend fails with status `NotFound`, before and after the request
side has ended cleanly. -/
theorem c2s_failure_returned_verbatim_witness :
    (echoServerStream.method = some "/Echo/Stream" ∧ Error.status 5 "no such user" ≠ .EOF) ∧
    serverHandler echoServerStream echoClientStream none [] [.status 5 "no such user"]
      (fun _ => true) =
      { trace := [.NewClientStream "/Echo/Stream" [("k", ["v"])],
          .recv .c2s (.status 5 "no such user"), .SetTrailer [], .clientCancel]
        outcome := .returned 129 (some (.status 5 "no such user")) } ∧
    serverHandler echoServerStream echoClientStream none [.EOF] [.status 5 "no such user"]
      (fun _ => true) =
      { trace := [.NewClientStream "/Echo/Stream" [("k", ["v"])], .recv .s2c .EOF,
          .CloseSend, .recv .c2s (.status 5 "no such user"), .SetTrailer [], .clientCancel]
        outcome := .returned 129 (some (.status 5 "no such user")) } :=
  ⟨⟨rfl, by decide⟩,
    (c2s_failure_returned_verbatim echoServerStream echoClientStream "/Echo/Stream" [] []
      (fun _ => true) (.status 5 "no such user") rfl (by decide)).1 (Or.inl rfl),
    (c2s_failure_returned_verbatim echoServerStream echoClientStream "/Echo/Stream" [.EOF] []
      (fun _ => true) (.status 5 "no such user") rfl (by decide)).2 [] rfl rfl (Or.inl rfl)⟩

/-- C5: whenever `serverHandler` receives `io.EOF` from the outbound→inbound pump, it
calls `SetTrailer` with the outbound trailer and returns `nil`, both when `c2sErrChan` is
taken by the first `select` (whether the other pump has not reported, or has and the
runtime picks `c2sErrChan`) and when it is taken by the second, after the `io.EOF` of the
other pump. -/
theorem c2s_clean_end_returns_nil (ss : ServerStream) (cs : ClientStream) (m : String)
    (s2c rest : List Error) (choose : Nat → Bool) (hm : ss.method = some m) :
    ((s2c = [] ∨ choose 0 = false) →
      serverHandler ss cs none s2c (.EOF :: rest) choose =
        { trace := [.NewClientStream m ss.incoming, .recv .c2s .EOF,
            .SetTrailer cs.Trailer, .clientCancel]
          outcome := .returned 131 none }) ∧
    (∀ srest, s2c = .EOF :: srest → choose 0 = true → (srest = [] ∨ choose 1 = false) →
      serverHandler ss cs none s2c (.EOF :: rest) choose =
        { trace := [.NewClientStream m ss.incoming, .recv .s2c .EOF, .CloseSend,
            .recv .c2s .EOF, .SetTrailer cs.Trailer, .clientCancel]
          outcome := .returned 131 none }) := by
  constructor
  · intro h0
    rw [run_c2s_first ss cs m s2c rest choose .EOF hm h0]
    simp
  · rintro srest rfl h0 h1
    rw [run_c2s_second ss cs m srest rest choose .EOF hm h0 h1]
    simp

/-- C5 on a call whose backend ends cleanly: taken first although the request side has
reported too, and taken second. -/
theorem c2s_clean_end_returns_nil_witness :
    echoServerStream.method = some "/Echo/Stream" ∧
    serverHandler echoServerStream echoClientStream none [.other "connection reset"] [.EOF]
      (fun _ => false) =
      { trace := [.NewClientStream "/Echo/Stream" [("k", ["v"])], .recv .c2s .EOF,
          .SetTrailer [], .clientCancel]
        outcome := .returned 131 none } ∧
    serverHandler echoServerStream echoClientStream none [.EOF] [.EOF] (fun _ => true) =
      { trace := [.NewClientStream "/Echo/Stream" [("k", ["v"])], .recv .s2c .EOF,
          .CloseSend, .recv .c2s .EOF, .SetTrailer [], .clientCancel]
        outcome := .returned 131 none } :=
  ⟨rfl,
    (c2s_clean_end_returns_nil echoServerStream echoClientStream "/Echo/Stream"
      [.other "connection reset"] [] (fun _ => false) rfl).1 (Or.inr rfl),
    (c2s_clean_end_returns_nil echoServerStream echoClientStream "/Echo/Stream" [.EOF] []
      (fun _ => true) rfl).2 [] rfl rfl (Or.inl rfl)⟩

/-- C7: whenever `serverHandler` receives an error `E` other than `io.EOF` from the
inbound→outbound pump (in the first `select`, or in the second after an `io.EOF` from the
same channel), it calls `clientCancel` and returns at once, without receiving from the
other pump whatever that pump has reported, the status error with code `Internal` and
message `"failed proxying s2c: " ++ E.Error()`; that result is not `E` and not `nil`. -/
theorem s2c_failure_cancels_and_wraps (ss : ServerStream) (cs : ClientStream) (m : String)
    (srest c2s : List Error) (choose : Nat → Bool) (E : Error) (hm : ss.method = some m)
    (hE : E ≠ .EOF) :
    ((c2s = [] ∨ choose 0 = true) →
      serverHandler ss cs none (E :: srest) c2s choose =
        { trace := [.NewClientStream m ss.incoming, .recv .s2c E, .clientCancel,
            .clientCancel]
          outcome := .returned 120
            (some (.status codes.Internal ("failed proxying s2c: " ++ E.Error))) }) ∧
    ((c2s = [] ∨ choose 0 = true) → (c2s = [] ∨ choose 1 = true) →
      serverHandler ss cs none (.EOF :: E :: srest) c2s choose =
        { trace := [.NewClientStream m ss.incoming, .recv .s2c .EOF, .CloseSend,
            .recv .s2c E, .clientCancel, .clientCancel]
          outcome := .returned 120
            (some (.status codes.Internal ("failed proxying s2c: " ++ E.Error))) }) ∧
    Error.status codes.Internal ("failed proxying s2c: " ++ E.Error) ≠ E ∧
    (some (Error.status codes.Internal ("failed proxying s2c: " ++ E.Error)) : Option Error) ≠
      none := by
  refine ⟨?_, ?_, s2cFailure_ne E, by simp⟩
  · intro h0
    rw [run_s2c_first ss cs m srest c2s choose E hm hE h0]
    rfl
  · intro h0 h1
    rw [run_s2c_second ss cs m srest c2s choose E hm hE h0 h1]
    rfl

/-- C7 on a call whose inbound stream is reset while the backend has ended cleanly. -/
theorem s2c_failure_cancels_and_wraps_witness :
    (echoServerStream.method = some "/Echo/Stream" ∧
      Error.other "connection reset" ≠ .EOF) ∧
    serverHandler echoServerStream echoClientStream none [.other "connection reset"]
      [.EOF] (fun _ => true) =
      { trace := [.NewClientStream "/Echo/Stream" [("k", ["v"])],
          .recv .s2c (.other "connection reset"), .clientCancel, .clientCancel]
        outcome := .returned 120
          (some (.status 13 "failed proxying s2c: connection reset")) } :=
  ⟨⟨rfl, by decide⟩,
    (s2c_failure_cancels_and_wraps echoServerStream echoClientStream "/Echo/Stream" []
      [.EOF] (fun _ => true) (.other "connection reset") rfl (by decide)).1 (Or.inr rfl)⟩

/-- C6 fails as stated: on a call whose inbound stream is reset, `serverHandler` has opened
the outbound call, receives the failure of the inbound→outbound pump, and returns without
having called `SetTrailer`. -/
theorem trailer_not_copied_on_s2c_failure :
    serverHandler echoServerStream echoClientStream none [.other "connection reset"] []
      (fun _ => true) =
      { trace := [.NewClientStream "/Echo/Stream" [("k", ["v"])],
          .recv .s2c (.other "connection reset"), .clientCancel, .clientCancel]
        outcome := .returned 120
          (some (.status 13 "failed proxying s2c: connection reset")) } ∧
    HEvent.SetTrailer echoClientStream.Trailer ∉
      (serverHandler echoServerStream echoClientStream none [.other "connection reset"] []
        (fun _ => true)).trace := by
  decide

/-- C6, amended: on every path on which `serverHandler` receives an outcome `E` of the
outbound→inbound pump, success and failure alike (in the first `select`, or in the second
after the `io.EOF` of the other pump), it calls `SetTrailer` with the outbound trailer
right after and then returns; `SetTrailer` is called on no other path, and with no other
metadata; in particular, where the inbound→outbound pump reports a failure the handler
cancels and returns without calling it. -/
theorem trailer_copied_on_c2s_paths (ss : ServerStream) (cs : ClientStream) (m : String)
    (choose : Nat → Bool) (hm : ss.method = some m) :
    (∀ s2c E rest, (s2c = [] ∨ choose 0 = false) →
      serverHandler ss cs none s2c (E :: rest) choose =
        { trace := [.NewClientStream m ss.incoming, .recv .c2s E, .SetTrailer cs.Trailer,
            .clientCancel]
          outcome := if E ≠ .EOF then .returned 129 (some E) else .returned 131 none }) ∧
    (∀ srest E rest, choose 0 = true → (srest = [] ∨ choose 1 = false) →
      serverHandler ss cs none (.EOF :: srest) (E :: rest) choose =
        { trace := [.NewClientStream m ss.incoming, .recv .s2c .EOF, .CloseSend,
            .recv .c2s E, .SetTrailer cs.Trailer, .clientCancel]
          outcome := if E ≠ .EOF then .returned 129 (some E) else .returned 131 none }) ∧
    (∀ openErr s2c c2s md,
      HEvent.SetTrailer md ∈ (serverHandler ss cs openErr s2c c2s choose).trace →
      md = cs.Trailer ∧ openErr = none ∧
      ∃ E rest, c2s = E :: rest ∧
        ((s2c = [] ∨ choose 0 = false) ∨
          ∃ srest, s2c = .EOF :: srest ∧ choose 0 = true ∧
            (srest = [] ∨ choose 1 = false))) ∧
    (∀ F srest c2s, F ≠ .EOF → (c2s = [] ∨ choose 0 = true) →
      serverHandler ss cs none (F :: srest) c2s choose =
        { trace := [.NewClientStream m ss.incoming, .recv .s2c F, .clientCancel,
            .clientCancel]
          outcome := .returned 120 (some (s2cFailure F)) }) := by
  refine ⟨?_, ?_, ?_, ?_⟩
  · intro s2c E rest h0
    exact run_c2s_first ss cs m s2c rest choose E hm h0
  · intro srest E rest h0 h1
    exact run_c2s_second ss cs m srest rest choose E hm h0 h1
  · intro openErr s2c c2s md hmd
    obtain ⟨h1, h2, _, h3⟩ := setTrailer_only_on_c2s ss cs openErr s2c c2s choose md hmd
    exact ⟨h1, h2, h3⟩
  · intro F srest c2s hF h0
    exact run_s2c_first ss cs m srest c2s choose F hm hF h0

/-- C6, amended, on a call that ends cleanly on both sides, and on one whose backend
fails first: the trailer is set after the outcome of the outbound→inbound pump and before
the return. -/
theorem trailer_copied_on_c2s_paths_witness :
    echoServerStream.method = some "/Echo/Stream" ∧
    serverHandler echoServerStream echoClientStream none [.EOF] [.EOF] (fun _ => true) =
      { trace := [.NewClientStream "/Echo/Stream" [("k", ["v"])], .recv .s2c .EOF,
          .CloseSend, .recv .c2s .EOF, .SetTrailer [], .clientCancel]
        outcome := .returned 131 none } ∧
    serverHandler echoServerStream echoClientStream none [] [.status 14 "backend down"]
      (fun _ => true) =
      { trace := [.NewClientStream "/Echo/Stream" [("k", ["v"])],
          .recv .c2s (.status 14 "backend down"), .SetTrailer [], .clientCancel]
        outcome := .returned 129 (some (.status 14 "backend down")) } :=
  ⟨rfl,
    (trailer_copied_on_c2s_paths echoServerStream echoClientStream "/Echo/Stream"
      (fun _ => true) rfl).2.1 [] .EOF [] rfl (Or.inl rfl),
    (trailer_copied_on_c2s_paths echoServerStream echoClientStream "/Echo/Stream"
      (fun _ => true) rfl).1 [] (.status 14 "backend down") [] (Or.inl rfl)⟩

theorem consumed_loop_le (cs : ClientStream) (choose : Nat → Bool) :
    ∀ (n i : Nat) (s2c c2s : List Error),
      consumed (serverHandler.loop cs choose n i s2c c2s).trace ≤ n := by
  intro n
  induction n with
  | zero => intro i s2c c2s; simp [serverHandler.loop, consumed]
  | succ n ih =>
    intro i s2c c2s
    unfold serverHandler.loop
    rcases hsel : select (choose i) s2c c2s with _ | ⟨side, e, s2cRest, c2sRest⟩
    · simp [consumed]
    · cases side with
      | s2c =>
        by_cases he : e = .EOF
        · have := ih (i + 1) s2cRest c2sRest
          simp [he, HandlerRun.after, consumed]
          omega
        · simp [he, consumed]
      | c2s =>
        by_cases he : e = .EOF
        · simp [he, consumed]
        · simp [he, consumed]

/-- With at most one value from each channel, the two iterations of the loop never both
receive from `s2cErrChan`: the `return nil` after the loop is not reached. -/
theorem loop_no_fall_through (cs : ClientStream) (choose : Nat → Bool)
    (s2c c2s : List Error) (hs : s2c.length ≤ 1) (hc : c2s.length ≤ 1) (err : Option Error) :
    (serverHandler.loop cs choose 2 0 s2c c2s).outcome ≠ .returned 135 err := by
  rcases s2c with _ | ⟨a, _ | ⟨a', s2c⟩⟩
  · rcases c2s with _ | ⟨b, _ | ⟨b', c2s⟩⟩
    · simp [serverHandler.loop, select]
    · by_cases hb : b = .EOF <;> simp [serverHandler.loop, select, hb]
    · simp at hc
  · rcases c2s with _ | ⟨b, _ | ⟨b', c2s⟩⟩
    · by_cases ha : a = .EOF <;> simp [serverHandler.loop, select, ha, HandlerRun.after]
    · by_cases ha : a = .EOF <;> by_cases hb : b = .EOF <;>
        cases hch : choose 0 <;>
        simp [serverHandler.loop, select, ha, hb, hch, HandlerRun.after]
    · simp at hc
  · simp at hs

theorem deferClientCancel_outcome (h : HandlerRun) :
    (deferClientCancel h).outcome = h.outcome := by
  unfold deferClientCancel
  split <;> rfl

theorem consumed_deferClientCancel (h : HandlerRun) :
    consumed (deferClientCancel h).trace = consumed h.trace := by
  unfold deferClientCancel
  split
  · simp [consumed_append, consumed]
  · rfl

/-- With at most one value from each channel, `serverHandler` does not return from the
statement after its loop. -/
theorem serverHandler_no_fall_through (ss : ServerStream) (cs : ClientStream)
    (openErr : Option Error) (s2c c2s : List Error) (choose : Nat → Bool)
    (hs : s2c.length ≤ 1) (hc : c2s.length ≤ 1) (err : Option Error) :
    (serverHandler ss cs openErr s2c c2s choose).outcome ≠ .returned 135 err := by
  unfold serverHandler
  rcases hm : ss.method with _ | m
  · simp
  · rcases openErr with _ | e
    · simpa [deferClientCancel_outcome, HandlerRun.after] using
        loop_no_fall_through cs choose s2c c2s hs hc err
    · simp [deferClientCancel]

/-- At most two outcomes are received in a run of `serverHandler`. -/
theorem serverHandler_consumed_le (ss : ServerStream) (cs : ClientStream)
    (openErr : Option Error) (s2c c2s : List Error) (choose : Nat → Bool) :
    consumed (serverHandler ss cs openErr s2c c2s choose).trace ≤ 2 := by
  unfold serverHandler
  rcases hm : ss.method with _ | m
  · simp [consumed]
  · rcases openErr with _ | e
    · simpa [consumed_deferClientCancel, HandlerRun.after, consumed] using
        consumed_loop_le cs choose 2 0 s2c c2s
    · simp [deferClientCancel, consumed]

/-- C10: when each completion channel delivers at most one value, then for every order in
which `select` takes them `serverHandler` receives at most two outcomes and never returns
from the `return nil` after the loop (line 135); so it returns `nil` only on line 131,
after it has received `io.EOF` from the outbound→inbound pump. -/
theorem fall_through_never_reached (ss : ServerStream) (cs : ClientStream)
    (openErr : Option Error) (s2c c2s : List Error) (choose : Nat → Bool)
    (hs : s2c.length ≤ 1) (hc : c2s.length ≤ 1) :
    consumed (serverHandler ss cs openErr s2c c2s choose).trace ≤ 2 ∧
    (∀ err, (serverHandler ss cs openErr s2c c2s choose).outcome ≠ .returned 135 err) ∧
    (∀ line, (serverHandler ss cs openErr s2c c2s choose).outcome = .returned line none →
      line = 131 ∧
      HEvent.recv .c2s .EOF ∈ (serverHandler ss cs openErr s2c c2s choose).trace) := by
  refine ⟨serverHandler_consumed_le ss cs openErr s2c c2s choose,
    serverHandler_no_fall_through ss cs openErr s2c c2s choose hs hc, ?_⟩
  intro line hline
  have hno := serverHandler_no_fall_through ss cs openErr s2c c2s choose hs hc none
  rcases serverHandler_shape ss cs openErr s2c c2s choose with ⟨_, h⟩ | ⟨m, err, _, _, h⟩ |
    ⟨m, k, _, _, _, h | ⟨_, h⟩ | ⟨E', hE', h⟩ | ⟨E', hE', h⟩ | h⟩
  all_goals rw [h] at hline hno ⊢
  · simp at hline
  · simp at hline
  · simp at hline
  · simp at hno
  · simp at hline
  · simp at hline
  · simp at hline
    exact ⟨hline.symm, by simp⟩

/-- C10 on a call that ends cleanly on both sides, with the outbound→inbound pump taken
first. -/
theorem fall_through_never_reached_witness :
    ([Error.EOF].length ≤ 1 ∧ [Error.EOF].length ≤ 1) ∧
    consumed (serverHandler echoServerStream echoClientStream none [.EOF] [.EOF]
      (fun _ => false)).trace ≤ 2 ∧
    (serverHandler echoServerStream echoClientStream none [.EOF] [.EOF]
      (fun _ => false)).outcome ≠ .returned 135 none :=
  ⟨⟨by decide, by decide⟩,
    (fall_through_never_reached echoServerStream echoClientStream none [.EOF] [.EOF]
      (fun _ => false) (by decide) (by decide)).1,
    (fall_through_never_reached echoServerStream echoClientStream none [.EOF] [.EOF]
      (fun _ => false) (by decide) (by decide)).2.1 none⟩

/-- The assumption of C10 is needed: a channel `s2cErrChan` that delivered `io.EOF` twice
would take the handler through both iterations to the `return nil` on line 135. -/
theorem fall_through_with_two_values :
    serverHandler echoServerStream echoClientStream none [.EOF, .EOF] [] (fun _ => true) =
      { trace := [.NewClientStream "/Echo/Stream" [("k", ["v"])], .recv .s2c .EOF,
          .CloseSend, .recv .s2c .EOF, .CloseSend, .clientCancel]
        outcome := .returned 135 none } := by
  decide

/-- The assumption of C10 holds of the two pumps: in a proxied call, whatever the streams
do and however long the pumps have run, the handler does not reach line 135. -/
theorem proxyCall_no_fall_through (intSize : Nat) (ss : ServerStream) (cs : ClientStream)
    (openErr : Option Error) (fuel : Nat) (choose : Nat → Bool) (err : Option Error) :
    (proxyCall intSize ss cs openErr fuel choose).outcome ≠ .returned 135 err := by
  unfold proxyCall
  apply serverHandler_no_fall_through
  · rcases (pump_chan_invariant intSize ss cs fuel).1 with ⟨_, h⟩ | ⟨e, _, h⟩ <;> simp [h, make]
  · rcases (pump_chan_invariant intSize ss cs fuel).2 with ⟨_, h⟩ | ⟨e, _, h⟩ <;> simp [h, make]

/-- The end-to-end scenario: frames `[1]`, `[2]` in both directions, clean end on both
sides; the proxy half-closes downstream, sets the (empty) trailer and returns `nil`. -/
theorem proxyCall_echo :
    proxyCall 64 echoServerStream echoClientStream none 3 (fun _ => true) =
      { trace := [.NewClientStream "/Echo/Stream" [("k", ["v"])], .recv .s2c .EOF,
          .CloseSend, .recv .c2s .EOF, .SetTrailer [], .clientCancel]
        outcome := .returned 131 none } := by
  decide

end KubeGrpcBalancer
